import Mathlib

/-!
Verification of the UniVerify certificate registration/verification core
(`src/server.js`) against its natural-language specification.

The embedding models:
- `md5Hex` : the MD5 digest of the uploaded bytes (`md5Buffer` in the source),
  implemented concretely so that claims can be evaluated on concrete inputs;
- `Json` : the JSON values stored in `data/certificates.json` and produced in
  HTTP responses;
- `readDb` : the snapshot reader with its silent-recovery policy;
- `uploadHandler` / `verifyHandler` : the two route handlers, as pure functions
  from the request, the configured admin token, the snapshot-file state and the
  nondeterministic inputs (fresh id, current timestamp) to a result together
  with the list of filesystem writes performed.
-/

set_option maxRecDepth 100000

namespace UniVerify

/-! ### MD5 (the digest function used by `md5Buffer`) -/

/-- Word modulus of MD5, 2^32. -/
def M32 : Nat := 4294967296

/-- Left-rotate a 32-bit word (represented as a `Nat` below 2^32). -/
def rotl32 (x n : Nat) : Nat :=
  ((x <<< n) ||| (x >>> (32 - n))) % M32

/-- The 64 MD5 round constants (floor(abs(sin(i+1)) * 2^32)). -/
def md5K : List Nat :=
  [0xd76aa478, 0xe8c7b756, 0x242070db, 0xc1bdceee,
   0xf57c0faf, 0x4787c62a, 0xa8304613, 0xfd469501,
   0x698098d8, 0x8b44f7af, 0xffff5bb1, 0x895cd7be,
   0x6b901122, 0xfd987193, 0xa679438e, 0x49b40821,
   0xf61e2562, 0xc040b340, 0x265e5a51, 0xe9b6c7aa,
   0xd62f105d, 0x02441453, 0xd8a1e681, 0xe7d3fbc8,
   0x21e1cde6, 0xc33707d6, 0xf4d50d87, 0x455a14ed,
   0xa9e3e905, 0xfcefa3f8, 0x676f02d9, 0x8d2a4c8a,
   0xfffa3942, 0x8771f681, 0x6d9d6122, 0xfde5380c,
   0xa4beea44, 0x4bdecfa9, 0xf6bb4b60, 0xbebfbc70,
   0x289b7ec6, 0xeaa127fa, 0xd4ef3085, 0x04881d05,
   0xd9d4d039, 0xe6db99e5, 0x1fa27cf8, 0xc4ac5665,
   0xf4292244, 0x432aff97, 0xab9423a7, 0xfc93a039,
   0x655b59c3, 0x8f0ccc92, 0xffeff47d, 0x85845dd1,
   0x6fa87e4f, 0xfe2ce6e0, 0xa3014314, 0x4e0811a1,
   0xf7537e82, 0xbd3af235, 0x2ad7d2bb, 0xeb86d391]

/-- The 64 MD5 per-round shift amounts. -/
def md5S : List Nat :=
  [7, 12, 17, 22, 7, 12, 17, 22, 7, 12, 17, 22, 7, 12, 17, 22,
   5, 9, 14, 20, 5, 9, 14, 20, 5, 9, 14, 20, 5, 9, 14, 20,
   4, 11, 16, 23, 4, 11, 16, 23, 4, 11, 16, 23, 4, 11, 16, 23,
   6, 10, 15, 21, 6, 10, 15, 21, 6, 10, 15, 21, 6, 10, 15, 21]

/-- The MD5 nonlinear function and message-word index for round `i`. -/
def md5FG (i b c d : Nat) : Nat × Nat :=
  if i < 16 then ((b &&& c) ||| ((b ^^^ 0xffffffff) &&& d), i)
  else if i < 32 then ((d &&& b) ||| ((d ^^^ 0xffffffff) &&& c), (5 * i + 1) % 16)
  else if i < 48 then (b ^^^ c ^^^ d, (3 * i + 5) % 16)
  else (c ^^^ (b ||| (d ^^^ 0xffffffff)), (7 * i) % 16)

/-- MD5 padding: append `0x80`, zero bytes to 56 mod 64, then the bit length
as 8 little-endian bytes. -/
def md5Pad (msg : List Nat) : List Nat :=
  let len := msg.length
  let bitLen := (8 * len) % (2 ^ 64)
  let zeros := (120 - ((len + 1) % 64)) % 64
  msg ++ [0x80] ++ List.replicate zeros 0 ++
    (List.range 8).map (fun j => (bitLen >>> (8 * j)) % 256)

/-- Split a byte list into 64-byte chunks (fuel-based, structurally
recursive, so that it evaluates in the kernel). -/
def chunksGo : Nat → List Nat → List (List Nat)
  | 0, _ => []
  | _, [] => []
  | fuel + 1, l => l.take 64 :: chunksGo fuel (l.drop 64)

/-- Split a padded message into its 64-byte chunks. -/
def chunks64 (l : List Nat) : List (List Nat) := chunksGo l.length l

/-- The running MD5 state (four 32-bit words). -/
structure MD5State where
  a : Nat
  b : Nat
  c : Nat
  d : Nat
deriving DecidableEq

/-- Decode the 16 little-endian 32-bit message words of a chunk. -/
def wordsOfChunk (chunk : List Nat) : List Nat :=
  (List.range 16).map (fun j =>
    chunk.getD (4 * j) 0 + 256 * chunk.getD (4 * j + 1) 0 +
      65536 * chunk.getD (4 * j + 2) 0 + 16777216 * chunk.getD (4 * j + 3) 0)

/-- One MD5 round applied to the state. -/
def md5Round (m : List Nat) (st : MD5State) (i : Nat) : MD5State :=
  let fg := md5FG i st.b st.c st.d
  let tmp := (st.a + fg.1 + md5K.getD i 0 + m.getD fg.2 0) % M32
  ⟨st.d, (st.b + rotl32 tmp (md5S.getD i 0)) % M32, st.b, st.c⟩

/-- Process one 64-byte chunk. -/
def md5Chunk (st : MD5State) (chunk : List Nat) : MD5State :=
  let m := wordsOfChunk chunk
  let r := (List.range 64).foldl (md5Round m) st
  ⟨(st.a + r.a) % M32, (st.b + r.b) % M32, (st.c + r.c) % M32, (st.d + r.d) % M32⟩

/-- Lowercase hex digit for a value below 16. -/
def hexChar (n : Nat) : Char :=
  if n = 0 then '0' else if n = 1 then '1' else if n = 2 then '2'
  else if n = 3 then '3' else if n = 4 then '4' else if n = 5 then '5'
  else if n = 6 then '6' else if n = 7 then '7' else if n = 8 then '8'
  else if n = 9 then '9' else if n = 10 then 'a' else if n = 11 then 'b'
  else if n = 12 then 'c' else if n = 13 then 'd' else if n = 14 then 'e'
  else 'f'

/-- Two lowercase hex digits of a byte. -/
def byteHex (b : Nat) : List Char := [hexChar ((b / 16) % 16), hexChar (b % 16)]

/-- The four little-endian bytes of a 32-bit word. -/
def wordBytesLE (w : Nat) : List Nat :=
  [w % 256, (w >>> 8) % 256, (w >>> 16) % 256, (w >>> 24) % 256]

/-- MD5 digest of a byte sequence as a lowercase hex string: the model of
`md5Buffer(buf)` from the source. -/
def md5Hex (msg : List Nat) : String :=
  let fin := (chunks64 (md5Pad msg)).foldl md5Chunk
    ⟨0x67452301, 0xefcdab89, 0x98badcfe, 0x10325476⟩
  String.mk
    (((wordBytesLE fin.a ++ wordBytesLE fin.b ++ wordBytesLE fin.c ++
        wordBytesLE fin.d).map byteHex).foldr List.append [])

/-! ### JSON values and the snapshot file -/

/-- JSON values, as produced by `JSON.parse` and consumed by
`JSON.stringify`. Numbers are modelled as integers (the snapshot only ever
holds strings, and only truthiness of numbers matters to the code). -/
inductive Json where
  | null
  | bool (b : Bool)
  | num (n : Int)
  | str (s : String)
  | arr (elems : List Json)
  | obj (fields : List (String × Json))

/-- JavaScript truthiness of a JSON value (`false`, `0`, `""`, `null` are
falsy; arrays and objects are truthy). -/
def Json.truthy : Json → Bool
  | .null => false
  | .bool b => b
  | .num n => n != 0
  | .str s => s != ""
  | .arr _ => true
  | .obj _ => true

/-- Whether a JSON value is an array (has a `.find` method in JS). -/
def Json.isArr : Json → Bool
  | .arr _ => true
  | _ => false

/-- Look a key up in an object's field list. -/
def lookupField : List (String × Json) → String → Option Json
  | [], _ => none
  | (k, v) :: rest, key => if k = key then some v else lookupField rest key

/-- JavaScript property access `v[k]` where it cannot throw: `none` models
`undefined`. Only used where the receiver is known not to be `null`. -/
def jsPropD (v : Json) (k : String) : Option Json :=
  match v with
  | .obj fields => lookupField fields k
  | _ => none

/-- JavaScript property access `v[k]` including the throwing case:
reading a property of `null` raises a `TypeError`. -/
def jsProp (v : Json) (k : String) : Except String (Option Json) :=
  match v with
  | .null => .error ("TypeError: Cannot read properties of null (reading " ++ k ++ ")")
  | .obj fields => .ok (lookupField fields k)
  | _ => .ok none

/-- Top-level keys of a JSON object (empty for non-objects). -/
def Json.topKeys : Json → List String
  | .obj fields => fields.map Prod.fst
  | _ => []

/-- The observable state of the snapshot file `data/certificates.json`:
missing, unreadable/unparseable, or parsed to a JSON value. -/
inductive FileContent where
  | missing
  | malformed
  | parsed (j : Json)

/-- The model of `readDb`, projected to the `certificates` value of the
object it returns. The source returns `{certificates: parsed.certificates || []}`
inside a try/catch: on a missing or unparseable file (or `parsed` being
`null`, whose property access throws inside the try) it yields `[]`; on a
parsed non-object `parsed.certificates` is `undefined`, so `|| []` yields
`[]`; on a parsed object it yields the `certificates` field if truthy,
else `[]`. -/
def readDb : FileContent → Json
  | .missing => .arr []
  | .malformed => .arr []
  | .parsed .null => .arr []
  | .parsed (.obj fields) =>
      match lookupField fields "certificates" with
      | some v => if v.truthy then v else .arr []
      | none => .arr []
  | .parsed _ => .arr []

/-- Strict equality `p === s` of a JS value (`none` = `undefined`) against
a primitive string: true exactly when `p` is that string. -/
def strictEqStr (p : Option Json) (s : String) : Bool :=
  match p with
  | some (.str t) => t = s
  | _ => false

/-- The duplicate scan `db.certificates.find(c => c.md5 === md5)`: walks
the list in order; accessing `c.md5` on a `null` element throws. -/
def findCert (md5 : String) : List Json → Except String (Option Json)
  | [] => .ok none
  | c :: rest =>
    match jsProp c "md5" with
    | .error e => .error e
    | .ok p => if strictEqStr p md5 then .ok (some c) else findCert md5 rest

/-! ### Requests, write events and handlers -/

/-- Characters removed by JavaScript `String.prototype.trim` (the ASCII
white-space and line-terminator characters; the further Unicode space
characters do not occur in this development). -/
def isJsWS (c : Char) : Bool :=
  c = ' ' || c = '\t' || c = '\n' || c = '\r' || c = '\x0b' || c = '\x0c'

/-- JavaScript `s.trim()`: strip leading and trailing white space. -/
def jsTrim (s : String) : String :=
  String.mk (((s.data.dropWhile isJsWS).reverse.dropWhile isJsWS).reverse)

/-- An uploaded file as multer presents it (`req.file`): the in-memory
buffer and the client-reported MIME type. The buffer is `Option` because
the source separately checks `!req.file.buffer`; a present empty buffer is
`some []` (truthy in JS). -/
structure FileUpload where
  buffer : Option (List Nat)
  mimetype : String
deriving DecidableEq

/-- The form fields of a registration request (absent fields are `none`,
modelling `undefined`). -/
structure UploadReq where
  token : Option String
  file : Option FileUpload
  studentName : Option String
  degree : Option String
  issueDate : Option String
deriving DecidableEq

/-- A verification request: just the uploaded file. -/
structure VerifyReq where
  file : Option FileUpload

/-- A filesystem write performed by a handler: a blob-archive write
(`uploads/<id>.pdf`) or a full record-store rewrite, carrying the new
certificate list, i.e. `writeDb({certificates: ...})`. -/
inductive WriteEvent where
  | blobWrite (filename : String) (bytes : List Nat)
  | storeWrite (certs : List Json)

/-- Outcome of the upload route, one constructor per distinct response of
the source. -/
inductive UploadResult where
  | unauthorized
  | missingFile
  | unsupportedType
  | missingFields
  | duplicate (md5 : String) (cert : Json)
  | created (md5 : String) (cert : Json)
  | serverError (msg : String)

/-- The record object constructed on the non-duplicate path. -/
def mkRecord (id md5 studentName degree issueDate filename now : String) : Json :=
  .obj [("id", .str id), ("md5", .str md5), ("studentName", .str studentName),
        ("degree", .str degree), ("issueDate", .str issueDate),
        ("storedFile", .str filename), ("createdAt", .str now)]

/-- The upload route `POST /api/university/upload`, as a pure function of
the configured `ADMIN_TOKEN` (`none` = unset), the snapshot-file state, the
request, the fresh random id and the current timestamp. Returns the result
and the ordered list of filesystem writes it performed. -/
def uploadHandler (adminToken : Option String) (fs : FileContent)
    (req : UploadReq) (id now : String) : UploadResult × List WriteEvent :=
  let token := jsTrim (req.token.getD "")
  if token = "" ∨ some token ≠ adminToken then (.unauthorized, [])
  else
    match req.file with
    | none => (.missingFile, [])
    | some f =>
      match f.buffer with
      | none => (.missingFile, [])
      | some buf =>
        if f.mimetype ≠ "application/pdf" then (.unsupportedType, [])
        else
          let studentName := jsTrim (req.studentName.getD "")
          let degree := jsTrim (req.degree.getD "")
          let issueDate := jsTrim (req.issueDate.getD "")
          if studentName = "" ∨ degree = "" ∨ issueDate = "" then (.missingFields, [])
          else
            let md5 := md5Hex buf
            let filename := id ++ ".pdf"
            let blob := WriteEvent.blobWrite filename buf
            match readDb fs with
            | .arr certs =>
              match findCert md5 certs with
              | .error e => (.serverError e, [blob])
              | .ok (some c) => (.duplicate md5 c, [blob])
              | .ok none =>
                let record := mkRecord id md5 studentName degree issueDate filename now
                (.created md5 record, [blob, .storeWrite (record :: certs)])
            | _ => (.serverError "TypeError: db.certificates.find is not a function", [blob])

/-- Outcome of the verify route. `matched` carries the found record as
stored; the response projects its public fields. -/
inductive VerifyResult where
  | missingFile
  | unsupportedType
  | noMatch (md5 : String)
  | matched (md5 : String) (cert : Json)
  | serverError (msg : String)

/-- The verify route `POST /api/verify`, as a pure function of the
snapshot-file state and the request. -/
def verifyHandler (fs : FileContent) (req : VerifyReq) :
    VerifyResult × List WriteEvent :=
  match req.file with
  | none => (.missingFile, [])
  | some f =>
    match f.buffer with
    | none => (.missingFile, [])
    | some buf =>
      if f.mimetype ≠ "application/pdf" then (.unsupportedType, [])
      else
        let md5 := md5Hex buf
        match readDb fs with
        | .arr certs =>
          match findCert md5 certs with
          | .error e => (.serverError e, [])
          | .ok none => (.noMatch md5, [])
          | .ok (some c) => (.matched md5 c, [])
        | _ => (.serverError "TypeError: db.certificates.find is not a function", [])

/-- Apply one write event to the snapshot-file state (a blob write touches
only `uploads/`; a store write rewrites the snapshot with
`{certificates: ...}`, which parses back to what was written). -/
def applyWrite (fs : FileContent) : WriteEvent → FileContent
  | .blobWrite _ _ => fs
  | .storeWrite certs => .parsed (.obj [("certificates", .arr certs)])

/-- Apply a handler's writes in order. -/
def applyWrites (fs : FileContent) (ws : List WriteEvent) : FileContent :=
  ws.foldl applyWrite fs

/-- Whether a write event is a blob-archive write. -/
def isBlobWrite : WriteEvent → Bool
  | .blobWrite _ _ => true
  | _ => false

/-- Whether a write event is a record-store rewrite. -/
def isStoreWrite : WriteEvent → Bool
  | .storeWrite _ => true
  | _ => false

/-- Number of blob-archive writes in a write list. -/
def countBlob (ws : List WriteEvent) : Nat := (ws.filter isBlobWrite).length

/-- Number of record-store rewrites in a write list. -/
def countStore (ws : List WriteEvent) : Nat := (ws.filter isStoreWrite).length

/-! ### Response bodies -/

/-- The public projection of a stored record built by the verify route:
`{studentName, degree, issueDate, createdAt}` copied from the found record;
a property that is `undefined` on the record is dropped by `res.json`
serialization. -/
def certPublic (c : Json) : Json :=
  .obj (([("studentName", jsPropD c "studentName"), ("degree", jsPropD c "degree"),
          ("issueDate", jsPropD c "issueDate"),
          ("createdAt", jsPropD c "createdAt")]).filterMap
    (fun kv => kv.2.map (fun v => (kv.1, v))))

/-- The JSON body the upload route sends for each outcome, mirroring the
`res.json` literals of the source. -/
def uploadRespJson : UploadResult → Json
  | .unauthorized => .obj [("ok", .bool false), ("message", .str "Unauthorized (token)")]
  | .missingFile => .obj [("ok", .bool false), ("message", .str "PDF file is required")]
  | .unsupportedType => .obj [("ok", .bool false), ("message", .str "Only PDF is allowed")]
  | .missingFields => .obj [("ok", .bool false), ("message", .str "Missing fields")]
  | .duplicate md5 c =>
      .obj [("ok", .bool true),
            ("message", .str "Certificate already exists with the same MD5"),
            ("md5", .str md5), ("certificate", c)]
  | .created md5 c => .obj [("ok", .bool true), ("md5", .str md5), ("certificate", c)]
  | .serverError e =>
      .obj [("ok", .bool false), ("message", .str "Server error"), ("error", .str e)]

/-- The JSON body the verify route sends for each outcome. -/
def verifyRespJson : VerifyResult → Json
  | .missingFile => .obj [("ok", .bool false), ("message", .str "PDF file is required")]
  | .unsupportedType => .obj [("ok", .bool false), ("message", .str "Only PDF is allowed")]
  | .noMatch md5 =>
      .obj [("ok", .bool true), ("valid", .bool false), ("md5", .str md5),
            ("message", .str "No match found")]
  | .matched md5 c =>
      .obj [("ok", .bool true), ("valid", .bool true), ("md5", .str md5),
            ("certificate", certPublic c)]
  | .serverError e =>
      .obj [("ok", .bool false), ("message", .str "Server error"), ("error", .str e)]

/-! ### Store invariant -/

/-- Whether a stored value's `md5` property is the digest `m` (the
predicate of the duplicate scan, on non-throwing elements). -/
def matchesMd5 (m : String) (c : Json) : Bool := strictEqStr (jsPropD c "md5") m

/-- How many records in the list carry digest `m`. -/
def digestCount (certs : List Json) (m : String) : Nat :=
  (certs.filter (matchesMd5 m)).length

/-- The store invariant: at most one record per digest value. -/
def StoreInv (certs : List Json) : Prop := ∀ m, digestCount certs m ≤ 1

/-! ### Helper lemmas -/

theorem applyWrites_nil (fs : FileContent) : applyWrites fs [] = fs := rfl

theorem applyWrites_blob (fs : FileContent) (fn : String) (b : List Nat) :
    applyWrites fs [.blobWrite fn b] = fs := rfl

theorem applyWrites_blob_store (fs : FileContent) (fn : String) (b : List Nat)
    (certs : List Json) :
    applyWrites fs [.blobWrite fn b, .storeWrite certs] =
      .parsed (.obj [("certificates", .arr certs)]) := rfl

theorem readDb_store (certs : List Json) :
    readDb (.parsed (.obj [("certificates", .arr certs)])) = .arr certs := rfl

theorem jsPropD_of_jsProp (c : Json) (k : String) (p : Option Json)
    (h : jsProp c k = .ok p) : jsPropD c k = p := by
  cases c <;> simp_all [jsProp, jsPropD]

theorem findCert_none (m : String) (certs : List Json)
    (h : findCert m certs = .ok none) : ∀ c ∈ certs, matchesMd5 m c = false := by
  induction certs with
  | nil => intro c hc; cases hc
  | cons c rest ih =>
    intro x hx
    rw [findCert] at h
    cases hp : jsProp c "md5" with
    | error e => simp [hp] at h
    | ok p =>
      simp only [hp] at h
      by_cases hm : strictEqStr p m
      · simp [hm] at h
      · rw [if_neg hm] at h
        rcases List.mem_cons.mp hx with hx | hx
        · subst hx
          simp only [matchesMd5, jsPropD_of_jsProp x "md5" p hp]
          simpa using hm
        · exact ih h x hx

theorem StoreInv_cons_fresh (certs : List Json) (rec : Json) (m : String)
    (hrec : jsPropD rec "md5" = some (.str m))
    (hnone : findCert m certs = .ok none) (hinv : StoreInv certs) :
    StoreInv (rec :: certs) := by
  intro m2
  have hfil : certs.filter (matchesMd5 m) = [] := by
    rw [List.filter_eq_nil_iff]
    intro c hc
    simp [findCert_none m certs hnone c hc]
  by_cases hm : m2 = m
  · subst hm
    have hmr : matchesMd5 m2 rec = true := by
      simp [matchesMd5, hrec, strictEqStr]
    simp [digestCount, List.filter_cons, hmr, hfil]
  · have hmr : matchesMd5 m2 rec = false := by
      simp only [matchesMd5, hrec, strictEqStr, decide_eq_false_iff_not]
      exact fun h => hm h.symm
    have : digestCount (rec :: certs) m2 = digestCount certs m2 := by
      simp [digestCount, List.filter_cons, hmr]
    rw [this]
    exact hinv m2

theorem lookupField_filterMap_none (ps : List (String × Option Json)) (k : String)
    (h : ∀ p ∈ ps, p.1 ≠ k) :
    lookupField (ps.filterMap (fun kv => kv.2.map (fun v => (kv.1, v)))) k = none := by
  induction ps with
  | nil => rfl
  | cons hd tl ih =>
    have htl := ih (fun p hp => h p (List.mem_cons_of_mem hd hp))
    have hne : hd.1 ≠ k := h hd (List.mem_cons_self hd tl)
    cases hhd : hd.2 with
    | none => simpa [List.filterMap_cons, hhd] using htl
    | some v => simp [List.filterMap_cons, hhd, lookupField, hne, htl]

theorem certPublic_fields (c : Json) :
    jsPropD (certPublic c) "studentName" = jsPropD c "studentName" ∧
    jsPropD (certPublic c) "degree" = jsPropD c "degree" ∧
    jsPropD (certPublic c) "issueDate" = jsPropD c "issueDate" ∧
    jsPropD (certPublic c) "createdAt" = jsPropD c "createdAt" ∧
    jsPropD (certPublic c) "id" = none ∧
    jsPropD (certPublic c) "storedFile" = none ∧
    (certPublic c).topKeys ⊆ ["studentName", "degree", "issueDate", "createdAt"] := by
  cases h1 : jsPropD c "studentName" <;> cases h2 : jsPropD c "degree" <;>
    cases h3 : jsPropD c "issueDate" <;> cases h4 : jsPropD c "createdAt" <;>
    simp_all [certPublic, jsPropD, lookupField, Json.topKeys, List.subset_def]

/-- Running the upload handler on a request satisfying all preconditions:
the blob is archived unconditionally, then the store decides between the
duplicate and the created path. -/
theorem uploadHandler_run (adminToken : Option String) (fs : FileContent)
    (req : UploadReq) (f : FileUpload) (buf : List Nat) (id now : String)
    (certs : List Json)
    (htok : jsTrim (req.token.getD "") ≠ "")
    (hsec : some (jsTrim (req.token.getD "")) = adminToken)
    (hfile : req.file = some f) (hbuf : f.buffer = some buf)
    (hmime : f.mimetype = "application/pdf")
    (hn : jsTrim (req.studentName.getD "") ≠ "")
    (hd : jsTrim (req.degree.getD "") ≠ "")
    (hi : jsTrim (req.issueDate.getD "") ≠ "")
    (hfs : readDb fs = .arr certs) :
    uploadHandler adminToken fs req id now =
      match findCert (md5Hex buf) certs with
      | .error e => (.serverError e, [.blobWrite (id ++ ".pdf") buf])
      | .ok (some c) => (.duplicate (md5Hex buf) c, [.blobWrite (id ++ ".pdf") buf])
      | .ok none =>
        (.created (md5Hex buf)
           (mkRecord id (md5Hex buf) (jsTrim (req.studentName.getD ""))
             (jsTrim (req.degree.getD "")) (jsTrim (req.issueDate.getD ""))
             (id ++ ".pdf") now),
         [.blobWrite (id ++ ".pdf") buf,
          .storeWrite (mkRecord id (md5Hex buf) (jsTrim (req.studentName.getD ""))
            (jsTrim (req.degree.getD "")) (jsTrim (req.issueDate.getD ""))
            (id ++ ".pdf") now :: certs)]) := by
  simp only [uploadHandler, hfile, hbuf, hmime, hfs]
  rw [if_neg (by push_neg; exact ⟨htok, hsec⟩)]
  rw [if_neg (by simp)]
  rw [if_neg (by push_neg; exact ⟨hn, hd, hi⟩)]

/-- The authorization check's failure condition: the trimmed token is
empty, or differs from `ADMIN_TOKEN` (`!token || token !== process.env.ADMIN_TOKEN`). -/
@[reducible]
def authFails (adminToken : Option String) (req : UploadReq) : Prop :=
  jsTrim (req.token.getD "") = "" ∨ some (jsTrim (req.token.getD "")) ≠ adminToken

/-- The file-check failure condition (`!req.file || !req.file.buffer`). -/
@[reducible]
def fileAbsent (file : Option FileUpload) : Prop :=
  file = none ∨ ∃ f, file = some f ∧ f.buffer = none

/-- The metadata-check failure condition (`!studentName || !degree || !issueDate`
after trimming). -/
@[reducible]
def fieldsIncomplete (req : UploadReq) : Prop :=
  jsTrim (req.studentName.getD "") = "" ∨ jsTrim (req.degree.getD "") = "" ∨
    jsTrim (req.issueDate.getD "") = ""

/-- The record the upload route stores on the non-duplicate path. -/
def newRecord (req : UploadReq) (id md5 now : String) : Json :=
  mkRecord id md5 (jsTrim (req.studentName.getD "")) (jsTrim (req.degree.getD ""))
    (jsTrim (req.issueDate.getD "")) (id ++ ".pdf") now

/-- Exhaustive inversion of the upload route: exactly one of these branches
describes any run, pairing each outcome with the condition that selects it
and the writes it performs. -/
theorem uploadHandler_inv (adminToken : Option String) (fs : FileContent)
    (req : UploadReq) (id now : String) :
    (authFails adminToken req ∧
       uploadHandler adminToken fs req id now = (.unauthorized, [])) ∨
    (¬authFails adminToken req ∧ fileAbsent req.file ∧
       uploadHandler adminToken fs req id now = (.missingFile, [])) ∨
    (∃ f buf, ¬authFails adminToken req ∧ req.file = some f ∧ f.buffer = some buf ∧
      ((f.mimetype ≠ "application/pdf" ∧
          uploadHandler adminToken fs req id now = (.unsupportedType, [])) ∨
       (f.mimetype = "application/pdf" ∧ fieldsIncomplete req ∧
          uploadHandler adminToken fs req id now = (.missingFields, [])) ∨
       (f.mimetype = "application/pdf" ∧ ¬fieldsIncomplete req ∧
        (((readDb fs).isArr = false ∧
            uploadHandler adminToken fs req id now =
              (.serverError "TypeError: db.certificates.find is not a function",
               [.blobWrite (id ++ ".pdf") buf])) ∨
         (∃ certs e, readDb fs = .arr certs ∧
            findCert (md5Hex buf) certs = .error e ∧
            uploadHandler adminToken fs req id now =
              (.serverError e, [.blobWrite (id ++ ".pdf") buf])) ∨
         (∃ certs c, readDb fs = .arr certs ∧
            findCert (md5Hex buf) certs = .ok (some c) ∧
            uploadHandler adminToken fs req id now =
              (.duplicate (md5Hex buf) c, [.blobWrite (id ++ ".pdf") buf])) ∨
         (∃ certs, readDb fs = .arr certs ∧
            findCert (md5Hex buf) certs = .ok none ∧
            uploadHandler adminToken fs req id now =
              (.created (md5Hex buf) (newRecord req id (md5Hex buf) now),
               [.blobWrite (id ++ ".pdf") buf,
                .storeWrite (newRecord req id (md5Hex buf) now :: certs)])))))) := by
  by_cases hc : jsTrim (req.token.getD "") = "" ∨
      some (jsTrim (req.token.getD "")) ≠ adminToken
  · refine Or.inl ⟨hc, ?_⟩
    simp only [uploadHandler]
    rw [if_pos hc]
  · cases hfile : req.file with
    | none =>
      refine Or.inr (Or.inl ⟨hc, Or.inl rfl, ?_⟩)
      simp only [uploadHandler, hfile]
      rw [if_neg hc]
    | some f =>
      cases hbuf : f.buffer with
      | none =>
        refine Or.inr (Or.inl ⟨hc, Or.inr ⟨f, rfl, hbuf⟩, ?_⟩)
        simp only [uploadHandler, hfile, hbuf]
        rw [if_neg hc]
      | some buf =>
        refine Or.inr (Or.inr ⟨f, buf, hc, rfl, hbuf, ?_⟩)
        by_cases hm : f.mimetype = "application/pdf"
        · by_cases hfd : jsTrim (req.studentName.getD "") = "" ∨
              jsTrim (req.degree.getD "") = "" ∨ jsTrim (req.issueDate.getD "") = ""
          · refine Or.inr (Or.inl ⟨hm, hfd, ?_⟩)
            simp only [uploadHandler, hfile, hbuf]
            rw [if_neg hc, if_neg (fun h => h hm), if_pos hfd]
          · refine Or.inr (Or.inr ⟨hm, hfd, ?_⟩)
            have hrun : uploadHandler adminToken fs req id now =
                (if authFails adminToken req then (.unauthorized, ([] : List WriteEvent))
                 else uploadHandler adminToken fs req id now) := by
              rw [if_neg hc]
            cases hdb : readDb fs with
            | arr certs =>
              cases hfc : findCert (md5Hex buf) certs with
              | error e =>
                refine Or.inr (Or.inl ⟨certs, e, rfl, hfc, ?_⟩)
                simp only [uploadHandler, hfile, hbuf, hdb, hfc]
                rw [if_neg hc, if_neg (fun h => h hm), if_neg hfd]
              | ok p =>
                cases p with
                | none =>
                  refine Or.inr (Or.inr (Or.inr ⟨certs, rfl, hfc, ?_⟩))
                  simp only [uploadHandler, hfile, hbuf, hdb, hfc, newRecord]
                  rw [if_neg hc, if_neg (fun h => h hm), if_neg hfd]
                | some c =>
                  refine Or.inr (Or.inr (Or.inl ⟨certs, c, rfl, hfc, ?_⟩))
                  simp only [uploadHandler, hfile, hbuf, hdb, hfc]
                  rw [if_neg hc, if_neg (fun h => h hm), if_neg hfd]
            | null =>
              refine Or.inl ⟨by simp [hdb, Json.isArr], ?_⟩
              simp only [uploadHandler, hfile, hbuf, hdb]
              rw [if_neg hc, if_neg (fun h => h hm), if_neg hfd]
            | bool b =>
              refine Or.inl ⟨by simp [hdb, Json.isArr], ?_⟩
              simp only [uploadHandler, hfile, hbuf, hdb]
              rw [if_neg hc, if_neg (fun h => h hm), if_neg hfd]
            | num n =>
              refine Or.inl ⟨by simp [hdb, Json.isArr], ?_⟩
              simp only [uploadHandler, hfile, hbuf, hdb]
              rw [if_neg hc, if_neg (fun h => h hm), if_neg hfd]
            | str s =>
              refine Or.inl ⟨by simp [hdb, Json.isArr], ?_⟩
              simp only [uploadHandler, hfile, hbuf, hdb]
              rw [if_neg hc, if_neg (fun h => h hm), if_neg hfd]
            | obj fields =>
              refine Or.inl ⟨by simp [hdb, Json.isArr], ?_⟩
              simp only [uploadHandler, hfile, hbuf, hdb]
              rw [if_neg hc, if_neg (fun h => h hm), if_neg hfd]
        · refine Or.inl ⟨hm, ?_⟩
          simp only [uploadHandler, hfile, hbuf]
          rw [if_neg hc, if_pos hm]

/-- Exhaustive inversion of the verify route: every outcome with the
condition that selects it; the write list is empty in every branch. -/
theorem verifyHandler_inv (fs : FileContent) (req : VerifyReq) :
    (fileAbsent req.file ∧ verifyHandler fs req = (.missingFile, [])) ∨
    (∃ f buf, req.file = some f ∧ f.buffer = some buf ∧
      ((f.mimetype ≠ "application/pdf" ∧
          verifyHandler fs req = (.unsupportedType, [])) ∨
       (f.mimetype = "application/pdf" ∧
        (((readDb fs).isArr = false ∧
            verifyHandler fs req =
              (.serverError "TypeError: db.certificates.find is not a function", [])) ∨
         (∃ certs e, readDb fs = .arr certs ∧
            findCert (md5Hex buf) certs = .error e ∧
            verifyHandler fs req = (.serverError e, [])) ∨
         (∃ certs c, readDb fs = .arr certs ∧
            findCert (md5Hex buf) certs = .ok (some c) ∧
            verifyHandler fs req = (.matched (md5Hex buf) c, [])) ∨
         (∃ certs, readDb fs = .arr certs ∧
            findCert (md5Hex buf) certs = .ok none ∧
            verifyHandler fs req = (.noMatch (md5Hex buf), [])))))) := by
  cases hfile : req.file with
  | none => exact Or.inl ⟨Or.inl rfl, by simp only [verifyHandler, hfile]⟩
  | some f =>
    cases hbuf : f.buffer with
    | none =>
      exact Or.inl ⟨Or.inr ⟨f, rfl, hbuf⟩, by simp only [verifyHandler, hfile, hbuf]⟩
    | some buf =>
      refine Or.inr ⟨f, buf, rfl, hbuf, ?_⟩
      by_cases hm : f.mimetype = "application/pdf"
      · refine Or.inr ⟨hm, ?_⟩
        cases hdb : readDb fs with
        | arr certs =>
          cases hfc : findCert (md5Hex buf) certs with
          | error e =>
            refine Or.inr (Or.inl ⟨certs, e, rfl, hfc, ?_⟩)
            simp only [verifyHandler, hfile, hbuf, hdb, hfc]
            rw [if_neg (fun h => h hm)]
          | ok p =>
            cases p with
            | none =>
              refine Or.inr (Or.inr (Or.inr ⟨certs, rfl, hfc, ?_⟩))
              simp only [verifyHandler, hfile, hbuf, hdb, hfc]
              rw [if_neg (fun h => h hm)]
            | some c =>
              refine Or.inr (Or.inr (Or.inl ⟨certs, c, rfl, hfc, ?_⟩))
              simp only [verifyHandler, hfile, hbuf, hdb, hfc]
              rw [if_neg (fun h => h hm)]
        | null =>
          refine Or.inl ⟨by simp [hdb, Json.isArr], ?_⟩
          simp only [verifyHandler, hfile, hbuf, hdb]
          rw [if_neg (fun h => h hm)]
        | bool b =>
          refine Or.inl ⟨by simp [hdb, Json.isArr], ?_⟩
          simp only [verifyHandler, hfile, hbuf, hdb]
          rw [if_neg (fun h => h hm)]
        | num n =>
          refine Or.inl ⟨by simp [hdb, Json.isArr], ?_⟩
          simp only [verifyHandler, hfile, hbuf, hdb]
          rw [if_neg (fun h => h hm)]
        | str s =>
          refine Or.inl ⟨by simp [hdb, Json.isArr], ?_⟩
          simp only [verifyHandler, hfile, hbuf, hdb]
          rw [if_neg (fun h => h hm)]
        | obj fields =>
          refine Or.inl ⟨by simp [hdb, Json.isArr], ?_⟩
          simp only [verifyHandler, hfile, hbuf, hdb]
          rw [if_neg (fun h => h hm)]
      · refine Or.inl ⟨hm, ?_⟩
        simp only [verifyHandler, hfile, hbuf]
        rw [if_pos hm]

/-- Running the verify handler on a well-formed request. -/
theorem verifyHandler_run (fs : FileContent) (req : VerifyReq)
    (f : FileUpload) (buf : List Nat) (certs : List Json)
    (hfile : req.file = some f) (hbuf : f.buffer = some buf)
    (hmime : f.mimetype = "application/pdf")
    (hfs : readDb fs = .arr certs) :
    verifyHandler fs req =
      (match findCert (md5Hex buf) certs with
       | .error e => .serverError e
       | .ok none => .noMatch (md5Hex buf)
       | .ok (some c) => .matched (md5Hex buf) c, []) := by
  simp only [verifyHandler, hfile, hbuf, hmime, hfs]
  rw [if_neg (by simp)]
  cases findCert (md5Hex buf) certs with
  | error e => rfl
  | ok p => cases p <;> rfl

/-- The upload route on a fully valid request whose digest is already
present: the duplicate outcome with the found record, after the blob write. -/
theorem uploadHandler_run_dup (adminToken : Option String) (fs : FileContent)
    (req : UploadReq) (f : FileUpload) (buf : List Nat) (id now : String)
    (certs : List Json) (c : Json)
    (htok : jsTrim (req.token.getD "") ≠ "")
    (hsec : some (jsTrim (req.token.getD "")) = adminToken)
    (hfile : req.file = some f) (hbuf : f.buffer = some buf)
    (hmime : f.mimetype = "application/pdf")
    (hn : jsTrim (req.studentName.getD "") ≠ "")
    (hd : jsTrim (req.degree.getD "") ≠ "")
    (hi : jsTrim (req.issueDate.getD "") ≠ "")
    (hfs : readDb fs = .arr certs)
    (hfound : findCert (md5Hex buf) certs = .ok (some c)) :
    uploadHandler adminToken fs req id now =
      (.duplicate (md5Hex buf) c, [.blobWrite (id ++ ".pdf") buf]) := by
  rw [uploadHandler_run adminToken fs req f buf id now certs htok hsec hfile hbuf hmime
    hn hd hi hfs, hfound]

/-- The upload route on a fully valid request whose digest is fresh: the
created outcome, with the blob write followed by the store rewrite that
prepends the new record. -/
theorem uploadHandler_run_fresh (adminToken : Option String) (fs : FileContent)
    (req : UploadReq) (f : FileUpload) (buf : List Nat) (id now : String)
    (certs : List Json)
    (htok : jsTrim (req.token.getD "") ≠ "")
    (hsec : some (jsTrim (req.token.getD "")) = adminToken)
    (hfile : req.file = some f) (hbuf : f.buffer = some buf)
    (hmime : f.mimetype = "application/pdf")
    (hn : jsTrim (req.studentName.getD "") ≠ "")
    (hd : jsTrim (req.degree.getD "") ≠ "")
    (hi : jsTrim (req.issueDate.getD "") ≠ "")
    (hfs : readDb fs = .arr certs)
    (hfresh : findCert (md5Hex buf) certs = .ok none) :
    uploadHandler adminToken fs req id now =
      (.created (md5Hex buf) (newRecord req id (md5Hex buf) now),
       [.blobWrite (id ++ ".pdf") buf,
        .storeWrite (newRecord req id (md5Hex buf) now :: certs)]) := by
  rw [uploadHandler_run adminToken fs req f buf id now certs htok hsec hfile hbuf hmime
    hn hd hi hfs, hfresh]
  rfl

/-- The verify route never writes. -/
theorem verifyHandler_no_writes (fs : FileContent) (req : VerifyReq) :
    (verifyHandler fs req).2 = [] := by
  rcases verifyHandler_inv fs req with ⟨-, hout⟩ | ⟨f, buf, -, -, ⟨-, hout⟩ |
    ⟨-, ⟨-, hout⟩ | ⟨certs, e, -, -, hout⟩ | ⟨certs, c, -, -, hout⟩ |
      ⟨certs, -, -, hout⟩⟩⟩ <;> rw [hout]

/-- Recovering the invariant when the store is unchanged. -/
theorem storeInv_of_unchanged (fs : FileContent) (certs certs2 : List Json)
    (hfs : readDb fs = .arr certs) (hinv : StoreInv certs)
    (h2 : readDb fs = .arr certs2) : StoreInv certs2 := by
  rw [hfs] at h2
  injection h2 with h3
  exact h3 ▸ hinv

/-- Public-field structure of the verify response, per outcome. -/
theorem verifyResp_public (r : VerifyResult) :
    jsPropD (verifyRespJson r) "id" = none ∧
    jsPropD (verifyRespJson r) "storedFile" = none ∧
    (∀ m c, r = .matched m c →
      jsPropD (verifyRespJson r) "valid" = some (.bool true) ∧
      jsPropD (verifyRespJson r) "md5" = some (.str m) ∧
      jsPropD (verifyRespJson r) "certificate" = some (certPublic c)) ∧
    (∀ m, r = .noMatch m →
      jsPropD (verifyRespJson r) "valid" = some (.bool false) ∧
      jsPropD (verifyRespJson r) "md5" = some (.str m)) := by
  cases r <;> simp [verifyRespJson, jsPropD, lookupField]

/-! ### Concrete fixtures used by witnesses and counterexamples -/

/-- A PDF upload with the given byte content. -/
def pdfOf (b : List Nat) : FileUpload := ⟨some b, "application/pdf"⟩

/-- A well-formed registration request; note the surrounding whitespace in
the token and the holder name, which the source trims away. -/
def reqAlice : UploadReq :=
  ⟨some " S ", some (pdfOf [1]), some " Alice ", some "BSc", some "2024-01-01"⟩

/-- A record previously stored for the same byte content `[1]`. -/
def recBob : Json :=
  mkRecord "oldid" (md5Hex [1]) "Bob" "MSc" "2020-05-05" "oldid.pdf"
    "2020-05-05T00:00:00.000Z"

/-- A snapshot already holding `recBob`. -/
def storeBob : FileContent := .parsed (.obj [("certificates", .arr [recBob])])

/-- A snapshot whose `certificates` field is a truthy non-array. -/
def storeBad : FileContent := .parsed (.obj [("certificates", .num 5)])

/-- A registration request with a present but zero-length upload. -/
def reqEmptyBuf : UploadReq :=
  ⟨some "S", some (pdfOf []), some "A", some "B", some "C"⟩

/-! ### Claims -/

/-- Claim C1 counterexample: a byte sequence that passes all of
registration's preconditions but whose digest is already registered under
different metadata. Registering `[1]` (holder `" Alice "`) over a store
already holding a record for `[1]` with holder `"Bob"`, then verifying
with `[1]`, yields a match whose holder name is `"Bob"` — not the metadata
supplied at this registration (neither raw nor trimmed). -/
theorem c1_roundtrip_counterexample :
    (verifyHandler
        (applyWrites storeBob (uploadHandler (some "S") storeBob reqAlice "newid" "T1").2)
        ⟨some (pdfOf [1])⟩).1 = .matched (md5Hex [1]) recBob ∧
    jsPropD recBob "studentName" = some (.str "Bob") ∧
    ("Bob" : String) ≠ " Alice " ∧ ("Bob" : String) ≠ "Alice" :=
  ⟨rfl, rfl, by decide, by decide⟩

/-- Claim C1 (amended): when the digest of `B` is not yet in the store,
registering `B` (valid token, PDF type, non-empty trimmed fields) and then
verifying with the same `B` yields a match carrying exactly the new
record, whose holder name, credential type and issue date are the
whitespace-trimmed versions of the metadata supplied at registration. -/
theorem c1_roundtrip_fresh (adminToken : Option String) (fs : FileContent)
    (req : UploadReq) (f : FileUpload) (buf : List Nat) (id now : String)
    (certs : List Json)
    (htok : jsTrim (req.token.getD "") ≠ "")
    (hsec : some (jsTrim (req.token.getD "")) = adminToken)
    (hfile : req.file = some f) (hbuf : f.buffer = some buf)
    (hmime : f.mimetype = "application/pdf")
    (hn : jsTrim (req.studentName.getD "") ≠ "")
    (hd : jsTrim (req.degree.getD "") ≠ "")
    (hi : jsTrim (req.issueDate.getD "") ≠ "")
    (hfs : readDb fs = .arr certs)
    (hfresh : findCert (md5Hex buf) certs = .ok none) :
    (uploadHandler adminToken fs req id now).1 =
      .created (md5Hex buf) (newRecord req id (md5Hex buf) now) ∧
    (verifyHandler (applyWrites fs (uploadHandler adminToken fs req id now).2)
        ⟨some (pdfOf buf)⟩).1 =
      .matched (md5Hex buf) (newRecord req id (md5Hex buf) now) ∧
    jsPropD (newRecord req id (md5Hex buf) now) "studentName" =
      some (.str (jsTrim (req.studentName.getD ""))) ∧
    jsPropD (newRecord req id (md5Hex buf) now) "degree" =
      some (.str (jsTrim (req.degree.getD ""))) ∧
    jsPropD (newRecord req id (md5Hex buf) now) "issueDate" =
      some (.str (jsTrim (req.issueDate.getD ""))) := by
  have h1 := uploadHandler_run_fresh adminToken fs req f buf id now certs htok hsec hfile
    hbuf hmime hn hd hi hfs hfresh
  refine ⟨by rw [h1], ?_, by simp [newRecord, mkRecord, jsPropD, lookupField],
    by simp [newRecord, mkRecord, jsPropD, lookupField],
    by simp [newRecord, mkRecord, jsPropD, lookupField]⟩
  rw [h1, applyWrites_blob_store]
  rw [verifyHandler_run (.parsed (.obj [("certificates",
      .arr (newRecord req id (md5Hex buf) now :: certs))])) ⟨some (pdfOf buf)⟩
    (pdfOf buf) buf (newRecord req id (md5Hex buf) now :: certs) rfl rfl rfl
    (readDb_store _)]
  have hfind : findCert (md5Hex buf) (newRecord req id (md5Hex buf) now :: certs) =
      .ok (some (newRecord req id (md5Hex buf) now)) := by
    simp [findCert, jsProp, newRecord, mkRecord, lookupField, strictEqStr]
  rw [hfind]

/-- Claim C1 witness: the round-trip evaluated on a fresh store with
request `reqAlice` and bytes `[1]`. -/
theorem c1_roundtrip_fresh_witness :
    (verifyHandler (applyWrites .missing (uploadHandler (some "S") .missing reqAlice "id1" "T1").2)
        ⟨some (pdfOf [1])⟩).1 =
      .matched (md5Hex [1]) (newRecord reqAlice "id1" (md5Hex [1]) "T1") :=
  (c1_roundtrip_fresh (some "S") .missing reqAlice (pdfOf [1]) [1] "id1" "T1" []
    (by decide) rfl rfl rfl rfl (by decide) (by decide) (by decide) rfl rfl).2.1

/-- Claim C2: idempotence by content: when a record with `B`'s digest is
already in the store, a second fully valid registration of `B` returns
that stored record unchanged with the duplicate status, performs no
record-store write, and leaves the snapshot exactly as it was. -/
theorem c2_register_idempotent (adminToken : Option String) (fs : FileContent)
    (req : UploadReq) (f : FileUpload) (buf : List Nat) (id now : String)
    (certs : List Json) (c : Json)
    (htok : jsTrim (req.token.getD "") ≠ "")
    (hsec : some (jsTrim (req.token.getD "")) = adminToken)
    (hfile : req.file = some f) (hbuf : f.buffer = some buf)
    (hmime : f.mimetype = "application/pdf")
    (hn : jsTrim (req.studentName.getD "") ≠ "")
    (hd : jsTrim (req.degree.getD "") ≠ "")
    (hi : jsTrim (req.issueDate.getD "") ≠ "")
    (hfs : readDb fs = .arr certs)
    (hfound : findCert (md5Hex buf) certs = .ok (some c)) :
    (uploadHandler adminToken fs req id now).1 = .duplicate (md5Hex buf) c ∧
    countStore (uploadHandler adminToken fs req id now).2 = 0 ∧
    applyWrites fs (uploadHandler adminToken fs req id now).2 = fs ∧
    readDb (applyWrites fs (uploadHandler adminToken fs req id now).2) = .arr certs := by
  have h := uploadHandler_run_dup adminToken fs req f buf id now certs c htok hsec hfile
    hbuf hmime hn hd hi hfs hfound
  rw [h]
  exact ⟨rfl, rfl, rfl, hfs⟩

/-- Claim C2 witness: re-registering the bytes `[1]`, already stored as
`recBob`, with different metadata returns `recBob` and leaves the store
untouched. -/
theorem c2_register_idempotent_witness :
    (uploadHandler (some "S") storeBob reqAlice "newid" "T1").1 =
      .duplicate (md5Hex [1]) recBob ∧
    countStore (uploadHandler (some "S") storeBob reqAlice "newid" "T1").2 = 0 ∧
    applyWrites storeBob (uploadHandler (some "S") storeBob reqAlice "newid" "T1").2 =
      storeBob ∧
    readDb (applyWrites storeBob (uploadHandler (some "S") storeBob reqAlice "newid" "T1").2) =
      .arr [recBob] :=
  c2_register_idempotent (some "S") storeBob reqAlice (pdfOf [1]) [1] "newid" "T1"
    [recBob] recBob (by decide) rfl rfl rfl rfl (by decide) (by decide) (by decide) rfl rfl

/-- Claim C3 counterexample: on the duplicate path a blob-archive write
does occur: the upload route archives the file (`uploads/<id>.pdf`) before
it consults the store for a duplicate, so the duplicate outcome still
carries one blob write. -/
theorem c3_duplicate_writes_counterexample :
    (uploadHandler (some "S") storeBob reqAlice "newid" "T1").1 =
      .duplicate (md5Hex [1]) recBob ∧
    countBlob (uploadHandler (some "S") storeBob reqAlice "newid" "T1").2 = 1 :=
  ⟨rfl, rfl⟩

/-- Claim C3 (amended): on the duplicate path exactly one blob-archive
write and no record-store write occur (the blob is archived before the
duplicate check); on the created path exactly one blob write and one
full-store rewrite occur. -/
theorem c3_upload_write_effects (adminToken : Option String) (fs : FileContent)
    (req : UploadReq) (id now : String) :
    (∀ m c, (uploadHandler adminToken fs req id now).1 = .duplicate m c →
       countBlob (uploadHandler adminToken fs req id now).2 = 1 ∧
       countStore (uploadHandler adminToken fs req id now).2 = 0) ∧
    (∀ m c, (uploadHandler adminToken fs req id now).1 = .created m c →
       countBlob (uploadHandler adminToken fs req id now).2 = 1 ∧
       countStore (uploadHandler adminToken fs req id now).2 = 1) := by
  rcases uploadHandler_inv adminToken fs req id now with ⟨-, hout⟩ | ⟨-, -, hout⟩ |
    ⟨f, buf, -, -, -, ⟨-, hout⟩ | ⟨-, -, hout⟩ |
      ⟨-, -, ⟨-, hout⟩ | ⟨certs, e, -, -, hout⟩ | ⟨certs, c0, -, -, hout⟩ |
        ⟨certs, -, -, hout⟩⟩⟩ <;>
    rw [hout] <;>
    simp [countBlob, countStore, isBlobWrite, isStoreWrite]

/-- Claim C3 witness: the write effects evaluated on the duplicate path of
the concrete fixture. -/
theorem c3_upload_write_effects_witness :
    countBlob (uploadHandler (some "S") storeBob reqAlice "newid" "T1").2 = 1 ∧
    countStore (uploadHandler (some "S") storeBob reqAlice "newid" "T1").2 = 0 :=
  (c3_upload_write_effects (some "S") storeBob reqAlice "newid" "T1").1
    (md5Hex [1]) recBob rfl

/-- Claim C4 counterexample: an internal error (a `TypeError` raised by
calling `.find` on a non-array `certificates` value) is answered with a
response whose `error` field carries the stringified exception — the
internal detail is sent to the caller alongside the generic message. -/
theorem c4_error_leak_counterexample :
    (uploadHandler (some "S") storeBad reqAlice "newid" "T1").1 =
      .serverError "TypeError: db.certificates.find is not a function" ∧
    jsPropD (uploadRespJson (uploadHandler (some "S") storeBad reqAlice "newid" "T1").1)
        "error" =
      some (.str "TypeError: db.certificates.find is not a function") ∧
    ("TypeError: db.certificates.find is not a function" : String) ≠ "Server error" :=
  ⟨rfl, rfl, by decide⟩

/-- Claim C4 (amended): on every internal error both routes respond with
`ok = false`, the generic message `"Server error"`, and an `error` field
holding the stringified exception — the internal details are included in
the response, not withheld. -/
theorem c4_internal_error_response (adminToken : Option String) (fs : FileContent)
    (req : UploadReq) (id now : String) (vreq : VerifyReq) :
    (∀ e, (uploadHandler adminToken fs req id now).1 = .serverError e →
       uploadRespJson (uploadHandler adminToken fs req id now).1 =
         .obj [("ok", .bool false), ("message", .str "Server error"),
               ("error", .str e)]) ∧
    (∀ e, (verifyHandler fs vreq).1 = .serverError e →
       verifyRespJson (verifyHandler fs vreq).1 =
         .obj [("ok", .bool false), ("message", .str "Server error"),
               ("error", .str e)]) := by
  constructor <;> intro e h <;> rw [h] <;> rfl

/-- Claim C4 witness: the internal-error response evaluated on the
corrupt-store fixture. -/
theorem c4_internal_error_response_witness :
    uploadRespJson (uploadHandler (some "S") storeBad reqAlice "newid" "T1").1 =
      .obj [("ok", .bool false), ("message", .str "Server error"),
            ("error", .str "TypeError: db.certificates.find is not a function")] :=
  (c4_internal_error_response (some "S") storeBad reqAlice "newid" "T1" ⟨none⟩).1
    "TypeError: db.certificates.find is not a function" rfl

/-- Claim C5 counterexample: a present upload whose byte content has zero
length is not rejected with the missing-file error: registration proceeds
and creates a record for the digest of the empty byte sequence, and
verification likewise proceeds (an empty `Buffer` is truthy in JS, so
`!req.file.buffer` does not fire). -/
theorem c5_empty_bytes_counterexample :
    (uploadHandler (some "S") .missing reqEmptyBuf "id0" "T0").1 =
      .created (md5Hex []) (newRecord reqEmptyBuf "id0" (md5Hex []) "T0") ∧
    md5Hex [] = "d41d8cd98f00b204e9800998ecf8427e" ∧
    (verifyHandler .missing ⟨some (pdfOf [])⟩).1 = .noMatch (md5Hex []) :=
  ⟨rfl, rfl, rfl⟩

/-- Claim C5 (amended): the missing-file failure occurs exactly when the
uploaded file or its byte buffer is absent; a present zero-length buffer
passes the check (for registration, provided authorization succeeded). -/
theorem c5_missing_file_iff (adminToken : Option String) (fs : FileContent)
    (req : UploadReq) (id now : String) (vreq : VerifyReq)
    (hauth : ¬authFails adminToken req) :
    ((uploadHandler adminToken fs req id now).1 = .missingFile ↔ fileAbsent req.file) ∧
    ((verifyHandler fs vreq).1 = .missingFile ↔ fileAbsent vreq.file) := by
  constructor
  · constructor
    · intro h
      rcases uploadHandler_inv adminToken fs req id now with ⟨hc, -⟩ | ⟨-, hfa, -⟩ |
        ⟨f, buf, -, -, -, ⟨-, hout⟩ | ⟨-, -, hout⟩ |
          ⟨-, -, ⟨-, hout⟩ | ⟨certs, e, -, -, hout⟩ | ⟨certs, c, -, -, hout⟩ |
            ⟨certs, -, -, hout⟩⟩⟩
      · exact absurd hc hauth
      · exact hfa
      all_goals rw [hout] at h; simp at h
    · intro hfa
      rcases uploadHandler_inv adminToken fs req id now with ⟨hc, -⟩ | ⟨-, -, hout⟩ |
        ⟨f, buf, -, hfile, hbuf, -⟩
      · exact absurd hc hauth
      · rw [hout]
      · rcases hfa with h | ⟨f2, hf2, hb2⟩ <;> simp_all
  · constructor
    · intro h
      rcases verifyHandler_inv fs vreq with ⟨hfa, -⟩ |
        ⟨f, buf, -, -, ⟨-, hout⟩ |
          ⟨-, ⟨-, hout⟩ | ⟨certs, e, -, -, hout⟩ | ⟨certs, c, -, -, hout⟩ |
            ⟨certs, -, -, hout⟩⟩⟩
      · exact hfa
      all_goals rw [hout] at h; simp at h
    · intro hfa
      rcases verifyHandler_inv fs vreq with ⟨-, hout⟩ | ⟨f, buf, hfile, hbuf, -⟩
      · rw [hout]
      · rcases hfa with h | ⟨f2, hf2, hb2⟩ <;> simp_all

/-- Claim C5 witness: the missing-file characterization evaluated on a
request with no file at all. -/
theorem c5_missing_file_iff_witness :
    ((uploadHandler (some "S") .missing ⟨some "S", none, none, none, none⟩ "i" "n").1 =
        .missingFile ↔ fileAbsent (⟨some "S", none, none, none, none⟩ : UploadReq).file) ∧
    ((verifyHandler .missing ⟨none⟩).1 = .missingFile ↔
        fileAbsent (⟨none⟩ : VerifyReq).file) :=
  c5_missing_file_iff (some "S") .missing ⟨some "S", none, none, none, none⟩ "i" "n" ⟨none⟩
    (by decide)

/-- Claim C6 counterexample: the supplied token is trimmed before the
comparison, so a token differing from the secret only by surrounding
whitespace passes authorization — the request proceeds to the file check
instead of being rejected as unauthorized. -/
theorem c6_auth_whitespace_counterexample :
    uploadHandler (some "S") .missing ⟨some " S ", none, none, none, none⟩ "i" "n" =
      (.missingFile, []) ∧ (" S " : String) ≠ "S" :=
  ⟨rfl, by decide⟩

/-- Claim C6 (amended): a registration passes the authorization check if
and only if the supplied token is non-empty after trimming surrounding
whitespace and its trimmed form equals the configured secret exactly; when
the check fails the request is rejected as unauthorized with no writes,
before any other check. -/
theorem c6_auth_trim_iff (adminToken : Option String) (fs : FileContent)
    (req : UploadReq) (id now : String) :
    ((uploadHandler adminToken fs req id now).1 = .unauthorized ↔
      (jsTrim (req.token.getD "") = "" ∨
        some (jsTrim (req.token.getD "")) ≠ adminToken)) ∧
    ((uploadHandler adminToken fs req id now).1 = .unauthorized →
      (uploadHandler adminToken fs req id now).2 = []) := by
  rcases uploadHandler_inv adminToken fs req id now with ⟨hc, hout⟩ | ⟨hc, -, hout⟩ |
    ⟨f, buf, hc, -, -, ⟨-, hout⟩ | ⟨-, -, hout⟩ |
      ⟨-, -, ⟨-, hout⟩ | ⟨certs, e, -, -, hout⟩ | ⟨certs, c, -, -, hout⟩ |
        ⟨certs, -, -, hout⟩⟩⟩ <;>
    rw [hout] <;> constructor <;> simp [hc]

/-- Claim C6 witness: the authorization characterization evaluated on a
wrong token. -/
theorem c6_auth_trim_iff_witness :
    ((uploadHandler (some "S") .missing ⟨some "x", none, none, none, none⟩ "i" "n").1 =
        .unauthorized ↔
      (jsTrim ((⟨some "x", none, none, none, none⟩ : UploadReq).token.getD "") = "" ∨
        some (jsTrim ((⟨some "x", none, none, none, none⟩ : UploadReq).token.getD "")) ≠
          some "S")) ∧
    ((uploadHandler (some "S") .missing ⟨some "x", none, none, none, none⟩ "i" "n").1 =
        .unauthorized →
      (uploadHandler (some "S") .missing ⟨some "x", none, none, none, none⟩ "i" "n").2 = []) :=
  c6_auth_trim_iff (some "S") .missing ⟨some "x", none, none, none, none⟩ "i" "n"

/-- Claim C7 counterexample: a parsed snapshot whose `certificates` field
is a truthy non-array (`{"certificates": 5}`) makes `readDb` hand back
`5`, which is not a record sequence, and the verify route then fails with
an internal error instead of treating the store as empty. -/
theorem c7_readDb_nonarray_counterexample :
    readDb (.parsed (.obj [("certificates", .num 5)])) = .num 5 ∧
    (readDb (.parsed (.obj [("certificates", .num 5)]))).isArr = false ∧
    (verifyHandler (.parsed (.obj [("certificates", .num 5)])) ⟨some (pdfOf [1])⟩).1 =
      .serverError "TypeError: db.certificates.find is not a function" :=
  ⟨rfl, rfl, rfl⟩

/-- Claim C7 (amended): `readDb` is total (it never raises to its caller)
and returns the empty sequence when the snapshot file is missing, when its
content is malformed, when the parsed content is `null` or not an object,
and when the `certificates` field is absent or falsy; but when the
`certificates` field holds a truthy value it returns that value as-is,
which is a record sequence only when the file actually held one. -/
theorem c7_readDb_fallback :
    readDb .missing = .arr [] ∧
    readDb .malformed = .arr [] ∧
    readDb (.parsed .null) = .arr [] ∧
    (∀ b, readDb (.parsed (.bool b)) = .arr []) ∧
    (∀ n, readDb (.parsed (.num n)) = .arr []) ∧
    (∀ s, readDb (.parsed (.str s)) = .arr []) ∧
    (∀ l, readDb (.parsed (.arr l)) = .arr []) ∧
    (∀ fields, lookupField fields "certificates" = none →
       readDb (.parsed (.obj fields)) = .arr []) ∧
    (∀ fields v, lookupField fields "certificates" = some v → v.truthy = false →
       readDb (.parsed (.obj fields)) = .arr []) ∧
    (∀ fields v, lookupField fields "certificates" = some v → v.truthy = true →
       readDb (.parsed (.obj fields)) = v) := by
  refine ⟨rfl, rfl, rfl, fun b => rfl, fun n => rfl, fun s => rfl, fun l => rfl,
    ?_, ?_, ?_⟩
  · intro fields hf
    simp [readDb, hf]
  · intro fields v hf hv
    simp [readDb, hf, hv]
  · intro fields v hf hv
    simp [readDb, hf, hv]

/-- Claim C7 witness: the truthy-field clause evaluated on a snapshot
holding a one-record sequence. -/
theorem c7_readDb_fallback_witness :
    readDb (.parsed (.obj [("certificates", .arr [recBob])])) = .arr [recBob] :=
  c7_readDb_fallback.2.2.2.2.2.2.2.2.2 [("certificates", .arr [recBob])]
    (.arr [recBob]) rfl rfl

/-- Claim C8: sequential registrations preserve the at-most-one-record-per
-digest store invariant, and an identical-digest registration (the
duplicate outcome) leaves the snapshot exactly as it was — the first
writer's record is kept. -/
theorem c8_store_invariant (adminToken : Option String) (fs : FileContent)
    (req : UploadReq) (id now : String) (certs : List Json)
    (hfs : readDb fs = .arr certs) (hinv : StoreInv certs) :
    (∀ certs2,
       readDb (applyWrites fs (uploadHandler adminToken fs req id now).2) = .arr certs2 →
       StoreInv certs2) ∧
    (∀ m c, (uploadHandler adminToken fs req id now).1 = .duplicate m c →
       applyWrites fs (uploadHandler adminToken fs req id now).2 = fs) := by
  rcases uploadHandler_inv adminToken fs req id now with ⟨-, hout⟩ | ⟨-, -, hout⟩ |
    ⟨f, buf, -, -, -, ⟨-, hout⟩ | ⟨-, -, hout⟩ |
      ⟨-, -, ⟨-, hout⟩ | ⟨certs1, e, hdb, -, hout⟩ | ⟨certs1, c1, hdb, -, hout⟩ |
        ⟨certs1, hdb, hfc, hout⟩⟩⟩
  case inr.inr.intro.intro.intro.intro.intro.inr.inr.intro.intro.inr.inr.inr.intro.intro.intro =>
    rw [hfs] at hdb
    injection hdb with hceq
    subst hceq
    rw [hout]
    constructor
    · intro certs2 h2
      rw [applyWrites_blob_store, readDb_store] at h2
      injection h2 with h3
      refine h3 ▸ StoreInv_cons_fresh _ _ (md5Hex buf) ?_ hfc hinv
      simp [newRecord, mkRecord, jsPropD, lookupField]
    · intro m c h
      simp at h
  all_goals rw [hout]; constructor
  all_goals first
    | (intro certs2 h2
       exact storeInv_of_unchanged fs certs certs2 hfs hinv
         (by simpa [applyWrites, applyWrite] using h2))
    | (intro m c h
       simp [applyWrites, applyWrite])

/-- Claim C8 witness: the invariant preservation evaluated on the
duplicate registration of `[1]` over the one-record store. -/
theorem c8_store_invariant_witness :
    StoreInv [recBob] ∧
    applyWrites storeBob (uploadHandler (some "S") storeBob reqAlice "newid" "T1").2 =
      storeBob := by
  have hinv : StoreInv [recBob] := by
    intro m
    simp only [digestCount, List.filter]
    cases h : matchesMd5 m recBob <;> simp
  exact ⟨hinv,
    (c8_store_invariant (some "S") storeBob reqAlice "newid" "T1" [recBob] rfl hinv).2
      (md5Hex [1]) recBob rfl⟩

/-- Claim C9: verification is read-only — it performs no store or archive
writes for any input — and its responses never include the internal `id`
or `storedFile` (archive reference) fields: a no-match response carries
`valid = false` and the digest; a match response carries `valid = true`,
the digest, and a certificate object whose keys are at most the four
public metadata fields, each copied from the stored record. -/
theorem c9_verify_readonly_public (fs : FileContent) (req : VerifyReq) :
    (verifyHandler fs req).2 = [] ∧
    jsPropD (verifyRespJson (verifyHandler fs req).1) "id" = none ∧
    jsPropD (verifyRespJson (verifyHandler fs req).1) "storedFile" = none ∧
    (∀ m, (verifyHandler fs req).1 = .noMatch m →
       jsPropD (verifyRespJson (verifyHandler fs req).1) "valid" = some (.bool false) ∧
       jsPropD (verifyRespJson (verifyHandler fs req).1) "md5" = some (.str m)) ∧
    (∀ m c, (verifyHandler fs req).1 = .matched m c →
       jsPropD (verifyRespJson (verifyHandler fs req).1) "valid" = some (.bool true) ∧
       jsPropD (verifyRespJson (verifyHandler fs req).1) "md5" = some (.str m) ∧
       jsPropD (verifyRespJson (verifyHandler fs req).1) "certificate" =
         some (certPublic c) ∧
       jsPropD (certPublic c) "id" = none ∧
       jsPropD (certPublic c) "storedFile" = none ∧
       (certPublic c).topKeys ⊆ ["studentName", "degree", "issueDate", "createdAt"] ∧
       jsPropD (certPublic c) "studentName" = jsPropD c "studentName" ∧
       jsPropD (certPublic c) "degree" = jsPropD c "degree" ∧
       jsPropD (certPublic c) "issueDate" = jsPropD c "issueDate" ∧
       jsPropD (certPublic c) "createdAt" = jsPropD c "createdAt") := by
  have hw := verifyHandler_no_writes fs req
  have hp := verifyResp_public (verifyHandler fs req).1
  refine ⟨hw, hp.1, hp.2.1, hp.2.2.2, ?_⟩
  intro m c h
  have h3 := hp.2.2.1 m c h
  have hcp := certPublic_fields c
  exact ⟨h3.1, h3.2.1, h3.2.2, hcp.2.2.2.2.1, hcp.2.2.2.2.2.1, hcp.2.2.2.2.2.2,
    hcp.1, hcp.2.1, hcp.2.2.1, hcp.2.2.2.1⟩

/-- Claim C9 witness: the read-only and public-projection facts evaluated
on a store where the verification matches `recBob`. -/
theorem c9_verify_readonly_public_witness :
    (verifyHandler storeBob ⟨some (pdfOf [1])⟩).2 = [] ∧
    jsPropD (verifyRespJson (verifyHandler storeBob ⟨some (pdfOf [1])⟩).1) "certificate" =
      some (certPublic recBob) ∧
    jsPropD (certPublic recBob) "id" = none :=
  ⟨(c9_verify_readonly_public storeBob ⟨some (pdfOf [1])⟩).1,
   ((c9_verify_readonly_public storeBob ⟨some (pdfOf [1])⟩).2.2.2.2
      (md5Hex [1]) recBob rfl).2.2.1,
   ((c9_verify_readonly_public storeBob ⟨some (pdfOf [1])⟩).2.2.2.2
      (md5Hex [1]) recBob rfl).2.2.2.1⟩

/-- Claim C10: the metadata persisted in a newly created record — and
echoed in the registration response's `certificate` field — are the
whitespace-trimmed versions of the submitted `studentName`, `degree` and
`issueDate` fields, not the raw submitted strings. -/
theorem c10_created_record_trimmed (adminToken : Option String) (fs : FileContent)
    (req : UploadReq) (id now : String) :
    ∀ m c, (uploadHandler adminToken fs req id now).1 = .created m c →
      c = mkRecord id m (jsTrim (req.studentName.getD "")) (jsTrim (req.degree.getD ""))
            (jsTrim (req.issueDate.getD "")) (id ++ ".pdf") now ∧
      jsPropD c "studentName" = some (.str (jsTrim (req.studentName.getD ""))) ∧
      jsPropD c "degree" = some (.str (jsTrim (req.degree.getD ""))) ∧
      jsPropD c "issueDate" = some (.str (jsTrim (req.issueDate.getD ""))) ∧
      jsPropD (uploadRespJson (.created m c)) "certificate" = some c := by
  intro m c h
  rcases uploadHandler_inv adminToken fs req id now with ⟨-, hout⟩ | ⟨-, -, hout⟩ |
    ⟨f, buf, -, -, -, ⟨-, hout⟩ | ⟨-, -, hout⟩ |
      ⟨-, -, ⟨-, hout⟩ | ⟨certs, e, -, -, hout⟩ | ⟨certs, c1, -, -, hout⟩ |
        ⟨certs, -, -, hout⟩⟩⟩ <;>
    rw [hout] at h <;> simp at h
  obtain ⟨h1, h2⟩ := h
  subst h1
  subst h2
  simp [newRecord, mkRecord, jsPropD, lookupField, uploadRespJson]

/-- Claim C10 witness: the trimmed metadata of the record created for
`reqAlice` (holder `" Alice "` is stored as `"Alice"`). -/
theorem c10_created_record_trimmed_witness :
    newRecord reqAlice "id1" (md5Hex [1]) "T1" =
      mkRecord "id1" (md5Hex [1]) "Alice" "BSc" "2024-01-01" "id1.pdf" "T1" ∧
    jsPropD (newRecord reqAlice "id1" (md5Hex [1]) "T1") "studentName" =
      some (.str "Alice") ∧
    jsPropD (newRecord reqAlice "id1" (md5Hex [1]) "T1") "degree" =
      some (.str "BSc") ∧
    jsPropD (newRecord reqAlice "id1" (md5Hex [1]) "T1") "issueDate" =
      some (.str "2024-01-01") ∧
    jsPropD (uploadRespJson (.created (md5Hex [1]) (newRecord reqAlice "id1" (md5Hex [1]) "T1")))
        "certificate" = some (newRecord reqAlice "id1" (md5Hex [1]) "T1") :=
  c10_created_record_trimmed (some "S") .missing reqAlice "id1" "T1" (md5Hex [1])
    (newRecord reqAlice "id1" (md5Hex [1]) "T1") rfl

end UniVerify
